import Mathlib

/-!
A verification development for the generic interactive table widget
(`TableModel` in pkg/tui) and the error-display screen (`ErrorModel`) of
the cloud-platform CLI.  The Go code is embedded shallowly: the widget's
state is a structure, the bubbletea messages are an inductive type, and
each Go method becomes a Lean function; the only panicking operation
(indexing the first formatted cell in selectCurrentRow) is modelled with
`Except`.
-/

set_option maxHeartbeats 1000000

namespace CliTui

/-- Keyboard keys delivered as bubbletea key messages.  The Go code
switches on `msg.String()` against "esc", "/", "enter", "up", "down",
so keys are modelled structurally, with printable characters explicit
(the slash key is `char` of the slash character). -/
inductive Key where
  | enter
  | esc
  | up
  | down
  | backspace
  | char (c : Char)
  deriving DecidableEq, Repr

/-- Commands handed back to the bubbletea runtime (`tea.Cmd`): the widget
emits nil (`noop`), `tea.Quit` (`quit`), `textinput.Blink` (`blink`), or a
command produced by a caller-supplied handler, recorded as `user` with a
tag and the item the handler received. -/
inductive Cmd (T : Type) where
  | noop
  | quit
  | blink
  | user (tag : String) (item : T)
  deriving DecidableEq

/-- Messages processed by `TableModel.Update`: the two load results
(`loadDataMsg`, `loadedErrMsg` as in the Go type names), key presses, and
the animation tick handled by `updateComponents`. -/
inductive Msg (T : Type) where
  | loadDataMsg (items : List T)
  | loadedErrMsg (e : String)
  | key (k : Key)
  | tick
  deriving DecidableEq

/-- Table column metadata (`table.Column`): a title and a fixed width. -/
structure Column where
  title : String
  width : Nat
  deriving DecidableEq, Repr

/-- The bubbles table sub-model as the widget uses it: the row strings,
the highlight cursor and the focus flag.  The cursor is an `Int` because
the upstream clamp can park it at -1 on an empty row set. -/
structure Table where
  rows : List (List String)
  cursor : Int
  focused : Bool
  deriving DecidableEq, Repr

def Table.setRows (t : Table) (r : List (List String)) : Table :=
  { t with rows := r }

def Table.focus (t : Table) : Table := { t with focused := true }

def Table.blur (t : Table) : Table := { t with focused := false }

/-- The clamp used by the upstream table widget for cursor movement. -/
def clampInt (v low high : Int) : Int := min (max v low) high

def Table.moveUp (t : Table) : Table :=
  { t with cursor := clampInt (t.cursor - 1) 0 ((t.rows.length : Int) - 1) }

def Table.moveDown (t : Table) : Table :=
  { t with cursor := clampInt (t.cursor + 1) 0 ((t.rows.length : Int) - 1) }

/-- `SelectedRow`: nil when the cursor is out of bounds, otherwise the row
under the cursor. -/
def Table.selectedRow (t : Table) : List String :=
  if t.cursor < 0 ∨ (t.rows.length : Int) ≤ t.cursor then []
  else t.rows.getD t.cursor.toNat []

/-- Key handling of the upstream table: input is ignored unless the table
is focused; up and down move the cursor (the only key bindings the widget
ever forwards to the table). -/
def Table.update (t : Table) (k : Key) : Table :=
  if t.focused = false then t
  else
    match k with
    | .up => t.moveUp
    | .down => t.moveDown
    | _ => t

/-- The bubbles text-input sub-model as the widget uses it: the query
buffer, the placeholder, the character limit, the display width and the
focus flag. -/
structure TextInput where
  value : String
  placeholder : String
  charLimit : Nat
  width : Nat
  focused : Bool
  deriving DecidableEq, Repr

def TextInput.focus (ti : TextInput) : TextInput := { ti with focused := true }

def TextInput.blur (ti : TextInput) : TextInput := { ti with focused := false }

/-- Editing behaviour of the upstream text input: input is ignored unless
focused; a printable character is appended while under the character
limit, backspace deletes the last character; enter, esc and the arrow
keys are unbound and leave the buffer unchanged. -/
def TextInput.update (ti : TextInput) (k : Key) : TextInput :=
  if ti.focused = false then ti
  else
    match k with
    | .char c =>
        if ti.value.length < ti.charLimit then { ti with value := ti.value.push c } else ti
    | .backspace => { ti with value := ti.value.dropRight 1 }
    | _ => ti

/-- The generic interactive table widget (`TableModel[T]`).  The spinner
is reduced to a frame counter; the caller-supplied collaborators are
function fields; the zero-argument loader is modelled by its result. -/
structure TableModel (T : Type) where
  name : String
  loading : Bool
  data : List T
  filteredData : List T
  table : Table
  spinner : Nat
  searchInput : TextInput
  searching : Bool
  currentFilter : String
  columns : List Column
  formatFunc : T → List String
  loadFunc : Except String (List T)
  selectFunc : T → Cmd T
  filterFunc : T → String → Bool

/-- `initSearchInput`: a blurred empty input with the "Search..."
placeholder, character limit 156 and width 20. -/
def initSearchInput : TextInput :=
  { value := "", placeholder := "Search...", charLimit := 156, width := 20, focused := false }

/-- `initTable`: an empty focused table (the column layout is display-only
metadata and does not enter the row state). -/
def initTable (_columns : List Column) : Table :=
  { rows := [], cursor := 0, focused := true }

/-- `NewTableModel`: wires the collaborators and starts in the loading
state with empty data, a blurred empty search input and a focused empty
table. -/
def newTableModel {T : Type} (name : String) (loadFunc : Except String (List T))
    (formatFunc : T → List String) (selectFunc : T → Cmd T)
    (columns : List Column) (filterFunc : T → String → Bool) : TableModel T :=
  { name := name, loading := true, data := [], filteredData := [],
    table := initTable columns, spinner := 0, searchInput := initSearchInput,
    searching := false, currentFilter := "", columns := columns,
    formatFunc := formatFunc, loadFunc := loadFunc, selectFunc := selectFunc,
    filterFunc := filterFunc }

/-- `loadData`: runs the loader and wraps the outcome as a message. -/
def TableModel.loadData {T : Type} (m : TableModel T) : Msg T :=
  match m.loadFunc with
  | .error err => .loadedErrMsg err
  | .ok d => .loadDataMsg d

/-- `updateTableRows`: recomputes the displayed rows by formatting every
item of the filtered collection. -/
def TableModel.updateTableRows {T : Type} (m : TableModel T) : TableModel T :=
  { m with table := m.table.setRows (m.filteredData.map m.formatFunc) }

/-- `setTableData`: stores the loaded items, mirrors them into the
filtered collection, recomputes rows and leaves the loading state. -/
def TableModel.setTableData {T : Type} (m : TableModel T) (items : List T) : TableModel T :=
  { (TableModel.updateTableRows { m with data := items, filteredData := items }) with
    loading := false }

/-- `filterData`: the full data for the empty query, otherwise the items
accepted by the filter predicate on the lowercased query, accumulated by
appending in traversal order as in the Go loop. -/
def TableModel.filterData {T : Type} (m : TableModel T) (query : String) : List T :=
  if query = "" then m.data
  else m.data.foldl (fun acc item => if m.filterFunc item query.toLower then acc ++ [item] else acc) []

/-- The scan inside `selectCurrentRow`: for each candidate the Go code
evaluates `formatFunc(datum)[0]`, which panics (here: the error branch)
when the formatted row is empty; the first candidate whose first cell
equals the target yields the selection handler's command; falling off the
end yields the nil command. -/
def selectLoop {T : Type} (fmt : T → List String) (sel : T → Cmd T) (target : String) :
    List T → Except String (Cmd T)
  | [] => .ok .noop
  | d :: ds =>
    match fmt d with
    | [] => .error "index out of range"
    | c :: _ => if c = target then .ok (sel d) else selectLoop fmt sel target ds

/-- `selectCurrentRow`: a nil command when no row is highlighted,
otherwise the scan over the filtered collection comparing first formatted
cells with the highlighted row's first cell. -/
def TableModel.selectCurrentRow {T : Type} (m : TableModel T) : Except String (Cmd T) :=
  match m.table.selectedRow with
  | [] => .ok .noop
  | c :: _ => selectLoop m.formatFunc m.selectFunc c m.filteredData

/-- `handleEnter`: leaves search mode (blurring the input) when searching,
then dispatches the selection of the current row. -/
def TableModel.handleEnter {T : Type} (m : TableModel T) : TableModel T × Except String (Cmd T) :=
  let m1 := if m.searching then { m with searching := false, searchInput := m.searchInput.blur } else m
  (m1, m1.selectCurrentRow)

/-- `handleEsc`: when searching, exits search mode, blurs the input,
clears `currentFilter`, restores the filtered collection to the full data
and recomputes rows; otherwise toggles table focus. -/
def TableModel.handleEsc {T : Type} (m : TableModel T) : TableModel T × Except String (Cmd T) :=
  if m.searching then
    (TableModel.updateTableRows
      { m with
          searching := false
          searchInput := m.searchInput.blur
          currentFilter := ""
          filteredData := m.data }, .ok .noop)
  else if m.table.focused then ({ m with table := m.table.blur }, .ok .noop)
  else ({ m with table := m.table.focus }, .ok .noop)

/-- `handleSlash`: enters search mode and focuses the input (emitting the
blink command) when not already searching. -/
def TableModel.handleSlash {T : Type} (m : TableModel T) : TableModel T × Except String (Cmd T) :=
  if m.searching = false then
    ({ m with searching := true, searchInput := m.searchInput.focus }, .ok .blink)
  else (m, .ok .noop)

/-- `handleKeyMsg`: the browsing-mode key switch; keys outside the four
bindings and the slash are ignored. -/
def TableModel.handleKeyMsg {T : Type} (m : TableModel T) (k : Key) :
    TableModel T × Except String (Cmd T) :=
  match k with
  | .esc => m.handleEsc
  | .char c => if c = '/' then m.handleSlash else (m, .ok .noop)
  | .enter => m.handleEnter
  | .up => ({ m with table := m.table.update .up }, .ok .noop)
  | .down => ({ m with table := m.table.update .down }, .ok .noop)
  | .backspace => (m, .ok .noop)

/-- `updateSearching`: the search-mode key handling; the search input is
updated first for every key, then enter and esc delegate, the arrows move
the table cursor, and any other key recomputes `currentFilter`, the
filtered collection and the rows from the new buffer value. -/
def TableModel.updateSearching {T : Type} (m : TableModel T) (k : Key) :
    TableModel T × Except String (Cmd T) :=
  let m1 : TableModel T := { m with searchInput := m.searchInput.update k }
  match k with
  | .enter => m1.handleEnter
  | .esc => m1.handleEsc
  | .up => ({ m1 with table := m1.table.update .up }, .ok .noop)
  | .down => ({ m1 with table := m1.table.update .down }, .ok .noop)
  | _ =>
    (TableModel.updateTableRows
      { m1 with
          currentFilter := m1.searchInput.value
          filteredData := m1.filterData m1.searchInput.value }, .ok .noop)

/-- `updateComponents`: non-key, non-load messages advance the spinner
while loading and are otherwise absorbed by the table, which does not
change state for them. -/
def TableModel.updateComponents {T : Type} (m : TableModel T) : TableModel T :=
  if m.loading then { m with spinner := m.spinner + 1 } else m

/-- `Update`: the widget's message dispatch. -/
def TableModel.update {T : Type} (m : TableModel T) (msg : Msg T) :
    TableModel T × Except String (Cmd T) :=
  match msg with
  | .loadDataMsg items => (m.setTableData items, .ok .noop)
  | .loadedErrMsg _ => ({ m with loading := false }, .ok .quit)
  | .key k => if m.searching then m.updateSearching k else m.handleKeyMsg k
  | .tick => (m.updateComponents, .ok .noop)

/-- The shape of `View`: a spinner caption while loading, otherwise the
table rows together with the search line when searching. -/
inductive ViewOut where
  | loadingView (name : String)
  | tableView (rows : List (List String)) (searchLine : Option String)
  deriving DecidableEq, Repr

def TableModel.view {T : Type} (m : TableModel T) : ViewOut :=
  if m.loading then .loadingView m.name
  else .tableView m.table.rows (if m.searching then some m.searchInput.value else none)

/-- States reachable from any construction of the widget by message steps
allowed by `guard`; the unguarded case is `Reachable`. -/
inductive ReachableG {T : Type} (guard : TableModel T → Msg T → Prop) : TableModel T → Prop where
  | init (name : String) (loadFunc : Except String (List T)) (formatFunc : T → List String)
      (selectFunc : T → Cmd T) (columns : List Column) (filterFunc : T → String → Bool) :
      ReachableG guard (newTableModel name loadFunc formatFunc selectFunc columns filterFunc)
  | step {m : TableModel T} (msg : Msg T) (hr : ReachableG guard m) (hg : guard m msg) :
      ReachableG guard (m.update msg).1

def Reachable {T : Type} (m : TableModel T) : Prop :=
  ReachableG (fun _ _ => True) m

/-- The filtering invariant of the spec: the filtered collection is
exactly the filter of the data by the current filter, or all of the data
when the current filter is empty. -/
def filterInvariant {T : Type} (m : TableModel T) : Prop :=
  m.filteredData =
    if m.currentFilter = "" then m.data
    else m.data.filter (fun x => m.filterFunc x m.currentFilter.toLower)

/-- How many of the three spec modes hold: loading, searching, and
plain-browsing (neither loading nor searching). -/
def modeCount {T : Type} (m : TableModel T) : Nat :=
  (if m.loading then 1 else 0) + (if m.searching then 1 else 0) +
    (if m.loading = false ∧ m.searching = false then 1 else 0)

/-- The selection-dispatch rule as the spec words it: with a highlighted
row, the first item of the filtered set whose first formatted cell equals
the highlighted row's first cell is handed to the selection handler; a
nil command otherwise. -/
def selectDispatchSpec {T : Type} (m : TableModel T) : Cmd T :=
  match m.table.selectedRow with
  | [] => .noop
  | c :: _ =>
    match m.filteredData.find? (fun d => (m.formatFunc d).head? == some c) with
    | some x => m.selectFunc x
    | none => .noop

/-- A custom option as the callers register it: a trigger key, a title
and an action-producing function for the chosen item. -/
structure CustomOption (T : Type) where
  key : String
  title : String
  function : T → Cmd T

/-- The string a key compares against option trigger keys, mirroring the
`msg.String()` values of the runtime. -/
def keyString (k : Key) : String :=
  match k with
  | .enter => "enter"
  | .esc => "esc"
  | .up => "up"
  | .down => "down"
  | .backspace => "backspace"
  | .char c => String.singleton c

/-- Modelled from the spec: the currently highlighted item, the item of
the filtered set at the table cursor position (none when the cursor is
out of bounds).  The widget code carrying this lookup is not in src. -/
def highlightedItem {T : Type} (m : TableModel T) : Option T :=
  if m.table.cursor < 0 then none else m.filteredData.get? m.table.cursor.toNat

/-- Modelled from the spec: dispatch of one custom option by its trigger
key, invoking the first registered option bound to the key with the
highlighted item, a no-op when none matches or nothing is highlighted. -/
def dispatchOption {T : Type} (m : TableModel T) (opts : List (CustomOption T)) (s : String) :
    TableModel T × Except String (Cmd T) :=
  match opts.find? (fun o => o.key == s) with
  | some o =>
    match highlightedItem m with
    | some item => (m, .ok (o.function item))
    | none => (m, .ok .noop)
  | none => (m, .ok .noop)

/-- Modelled from the spec: the browsing-mode key switch of a widget
constructed with custom options.  The custom-option dispatch is missing
from the widget source in src (only callers registering CustomOption
values appear); per the spec's keyboard surface, any bound custom-option
key, when not searching, triggers its action on the highlighted item,
after the fixed bindings get their usual meaning. -/
def handleKeyMsgWithOptions {T : Type} (m : TableModel T) (opts : List (CustomOption T))
    (k : Key) : TableModel T × Except String (Cmd T) :=
  match k with
  | .esc => m.handleEsc
  | .char c => if c = '/' then m.handleSlash else dispatchOption m opts (String.singleton c)
  | .enter => m.handleEnter
  | .up => ({ m with table := m.table.update .up }, .ok .noop)
  | .down => ({ m with table := m.table.update .down }, .ok .noop)
  | .backspace => dispatchOption m opts (keyString .backspace)

/-- Modelled from the spec: the message dispatch of a widget constructed
with custom options; identical to `TableModel.update` except that the
browsing-mode key handling also serves the registered options. -/
def updateWithOptions {T : Type} (m : TableModel T) (opts : List (CustomOption T))
    (msg : Msg T) : TableModel T × Except String (Cmd T) :=
  match msg with
  | .loadDataMsg items => (m.setTableData items, .ok .noop)
  | .loadedErrMsg _ => ({ m with loading := false }, .ok .quit)
  | .key k => if m.searching then m.updateSearching k else handleKeyMsgWithOptions m opts k
  | .tick => (m.updateComponents, .ok .noop)

/-- The style constant of the error screen (bold, centered, foreground
and border in the same red, with the paddings of the source). -/
structure LipglossStyle where
  bold : Bool
  alignCenter : Bool
  foreground : String
  borderForeground : String
  paddingTop : Nat
  paddingBottom : Nat
  paddingRight : Nat
  paddingLeft : Nat
  deriving DecidableEq, Repr

def errorStyle : LipglossStyle :=
  { bold := true, alignCenter := true, foreground := "#BA0D35",
    borderForeground := "#BA0D35", paddingTop := 2, paddingBottom := 1,
    paddingRight := 4, paddingLeft := 4 }

/-- A styled text render, keeping the style and the text separate so the
rendered content stays observable. -/
structure Styled where
  style : LipglossStyle
  text : String
  deriving DecidableEq, Repr

/-- The error-display screen (`ErrorModel`). -/
structure ErrorModel where
  DisplayError : String
  deriving DecidableEq, Repr

def newErrorModel (displayError : String) : ErrorModel :=
  { DisplayError := displayError }

/-- `ErrorModel.Update`: ignores the message entirely and quits. -/
def ErrorModel.update {M : Type} (m : ErrorModel) (_msg : M) : ErrorModel × Cmd Unit :=
  (m, .quit)

/-- `ErrorModel.View`: the stored error string rendered in the error
style. -/
def ErrorModel.view (m : ErrorModel) : Styled :=
  { style := errorStyle, text := m.DisplayError }

/-- The append-accumulator loop of `filterData` is `List.filter`. -/
theorem foldl_append_filter {α : Type} (p : α → Bool) (l : List α) :
    ∀ acc : List α,
      l.foldl (fun acc item => if p item then acc ++ [item] else acc) acc = acc ++ l.filter p := by
  induction l with
  | nil => intro acc; simp
  | cons a l ih =>
    intro acc
    by_cases h : p a
    · simp [List.foldl_cons, h, List.filter_cons, ih]
    · simp [List.foldl_cons, h, List.filter_cons, ih]

/-- `filterData` in closed form: the data itself on the empty query, the
filter of the data on the lowercased query otherwise. -/
theorem filterData_eq {T : Type} (m : TableModel T) (q : String) :
    m.filterData q =
      if q = "" then m.data else m.data.filter (fun x => m.filterFunc x q.toLower) := by
  unfold TableModel.filterData
  by_cases h : q = "" <;> simp [h, foldl_append_filter]

/-- A formatter for the concrete witness instances. -/
def fmtNat (n : Nat) : List String := [toString n]

/-- A freshly constructed witness widget over Nat items. -/
def mW : TableModel Nat :=
  newTableModel "services" (.ok [1, 2]) fmtNat (fun n => .user "select" n) []
    (fun n _ => n == 1)

/-- C1: for every loaded collection and every non-empty query string q,
`filterData` returns exactly the subsequence of data, in original
relative order, whose items satisfy the filter predicate applied to the
item and the lowercased q; for the empty query it returns the full data
collection unchanged. -/
theorem C1_filterData_spec {T : Type} (m : TableModel T) (q : String) :
    (q ≠ "" →
      m.filterData q = m.data.filter (fun x => m.filterFunc x q.toLower) ∧
      (m.filterData q).Sublist m.data ∧
      (∀ x, x ∈ m.filterData q ↔ x ∈ m.data ∧ m.filterFunc x q.toLower = true)) ∧
    m.filterData "" = m.data := by
  constructor
  · intro hq
    have h := filterData_eq m q
    rw [if_neg hq] at h
    refine ⟨h, ?_, ?_⟩
    · rw [h]; exact List.filter_sublist _
    · intro x; rw [h]; simp [List.mem_filter]
  · simpa using filterData_eq m ""

/-- C1 witness: the theorem applied at the witness widget and the
concrete query "x". -/
theorem C1_witness :
    ("x" ≠ "") ∧
    mW.filterData "x" = mW.data.filter (fun x => mW.filterFunc x ("x".toLower)) ∧
    mW.filterData "" = mW.data :=
  ⟨by decide, ((C1_filterData_spec mW "x").1 (by decide)).1, (C1_filterData_spec mW "x").2⟩

/-- The scan of `selectCurrentRow` in closed form: when every candidate
formats to a non-empty row, the scan cannot hit the out-of-bounds branch
and returns the handler's command on the first item whose first formatted
cell is the target, or the nil command when none matches. -/
theorem selectLoop_eq_find {T : Type} (fmt : T → List String) (sel : T → Cmd T) (t : String) :
    ∀ l : List T, (∀ d ∈ l, fmt d ≠ []) →
      selectLoop fmt sel t l =
        .ok (match l.find? (fun d => (fmt d).head? == some t) with
             | some x => sel x
             | none => Cmd.noop) := by
  intro l
  induction l with
  | nil => intro _; rfl
  | cons d ds ih =>
    intro h
    have hd : fmt d ≠ [] := h d (List.mem_cons_self d ds)
    have hds : ∀ x ∈ ds, fmt x ≠ [] := fun x hx => h x (List.mem_cons_of_mem d hx)
    cases hfd : fmt d with
    | nil => exact absurd hfd hd
    | cons c cs =>
      by_cases hct : c = t
      · have hrw : (d :: ds).find? (fun x => (fmt x).head? == some t) = some d :=
          List.find?_cons_of_pos ds (by simp [hfd, hct])
        rw [hrw]
        simp [selectLoop, hfd, hct]
      · have hrw : (d :: ds).find? (fun x => (fmt x).head? == some t)
            = ds.find? (fun x => (fmt x).head? == some t) :=
          List.find?_cons_of_neg ds (by simp [hfd, hct])
        rw [hrw]
        simp only [selectLoop, hfd]
        rw [if_neg hct]
        exact ih hds

/-- C9: selection dispatch indexes element 0 of the formatter's output
without a bounds guard; for every widget state, when the supplied
formatter returns a non-empty row for every item of the filtered
collection the error branch of the embedding is unreachable and
`selectCurrentRow` returns a command. -/
theorem C9_selectCurrentRow_safe {T : Type} (m : TableModel T)
    (hne : ∀ d ∈ m.filteredData, m.formatFunc d ≠ []) :
    ∃ c, m.selectCurrentRow = .ok c := by
  cases hsr : m.table.selectedRow with
  | nil => exact ⟨.noop, by unfold TableModel.selectCurrentRow; rw [hsr]⟩
  | cons c rest =>
    exact ⟨(match m.filteredData.find? (fun d => (m.formatFunc d).head? == some c) with
            | some x => m.selectFunc x
            | none => Cmd.noop),
      by
        unfold TableModel.selectCurrentRow
        rw [hsr]
        exact selectLoop_eq_find m.formatFunc m.selectFunc c m.filteredData hne⟩

/-- `handleEnter` leaves the selection command untouched by the search
mode bookkeeping. -/
theorem handleEnter_snd {T : Type} (m : TableModel T) :
    (m.handleEnter).2 = m.selectCurrentRow := by
  unfold TableModel.handleEnter
  split <;> rfl

/-- `selectCurrentRow` agrees with the spec's dispatch rule whenever the
formatter is non-empty on the filtered collection. -/
theorem selectCurrentRow_eq_spec {T : Type} (m : TableModel T)
    (hne : ∀ d ∈ m.filteredData, m.formatFunc d ≠ []) :
    m.selectCurrentRow = .ok (selectDispatchSpec m) := by
  unfold TableModel.selectCurrentRow selectDispatchSpec
  cases hsr : m.table.selectedRow with
  | nil => rfl
  | cons c rest =>
    exact selectLoop_eq_find m.formatFunc m.selectFunc c m.filteredData hne

/-- In a list whose images under `g` are pairwise distinct, searching for
the image of the element at position i finds exactly that element. -/
theorem find?_beq_get {α β : Type} [BEq β] [LawfulBEq β] (g : α → β) :
    ∀ (l : List α) (i : Nat) (hi : i < l.length), (l.map g).Nodup →
      l.find? (fun d => g d == g (l.get ⟨i, hi⟩)) = some (l.get ⟨i, hi⟩) := by
  intro l
  induction l with
  | nil => intro i hi _; exact absurd hi (by simp)
  | cons a tl ih =>
    intro i hi hnd
    have hna : g a ∉ tl.map g := (List.nodup_cons.mp (by simpa using hnd)).1
    cases i with
    | zero =>
      have hrw : (a :: tl).find? (fun d => g d == g ((a :: tl).get ⟨0, hi⟩)) = some a :=
        List.find?_cons_of_pos tl (by simp)
      rw [hrw]
      rfl
    | succ j =>
      have hj : j < tl.length := by simpa using hi
      have hget : (a :: tl).get ⟨j + 1, hi⟩ = tl.get ⟨j, hj⟩ := rfl
      have hmem : g (tl.get ⟨j, hj⟩) ∈ tl.map g := List.mem_map_of_mem g (List.get_mem tl j hj)
      have hne2 : (g a == g (tl.get ⟨j, hj⟩)) = false :=
        beq_eq_false_iff_ne.mpr (fun hco => hna (by rw [hco]; exact hmem))
      have hrw : (a :: tl).find? (fun d => g d == g (tl.get ⟨j, hj⟩))
          = tl.find? (fun d => g d == g (tl.get ⟨j, hj⟩)) :=
        List.find?_cons_of_neg tl (by simpa using beq_eq_false_iff_ne.mp hne2)
      rw [hget, hrw]
      exact ih j hj ((List.nodup_cons.mp (by simpa using hnd)).2)

/-- `find?_beq_get` specialised to first formatted cells. -/
theorem find?_head_get {T : Type} (fmt : T → List String) (l : List T) (i : Nat)
    (hi : i < l.length) (hnd : (l.map (fun d => (fmt d).head?)).Nodup) :
    l.find? (fun d => (fmt d).head? == (fmt (l.get ⟨i, hi⟩)).head?) = some (l.get ⟨i, hi⟩) :=
  find?_beq_get (fun d => (fmt d).head?) l i hi hnd

/-- When the rows are the formatted filtered collection and the cursor
sits at a valid position i, the selected row is the formatted item at
position i. -/
theorem selectedRow_at_cursor {T : Type} (m : TableModel T) (i : Nat)
    (hi : i < m.filteredData.length)
    (hrows : m.table.rows = m.filteredData.map m.formatFunc)
    (hcur : m.table.cursor = (i : Int)) :
    m.table.selectedRow = m.formatFunc (m.filteredData.get ⟨i, hi⟩) := by
  unfold Table.selectedRow
  rw [hcur, hrows]
  have hlen : i < (m.filteredData.map m.formatFunc).length := by simpa using hi
  have hc : ¬((i : Int) < 0 ∨ ((m.filteredData.map m.formatFunc).length : Int) ≤ (i : Int)) := by
    push_neg
    exact ⟨Int.natCast_nonneg i, by exact_mod_cast hlen⟩
  rw [if_neg hc]
  simp [List.getD_eq_getElem?_getD, List.getElem?_eq_getElem hlen]

/-- C2: when enter is pressed, the selection handler is invoked with the
first item of the current filtered collection whose first formatted cell
equals the highlighted row's first cell (a no-op command when no row is
highlighted), and when no two items of the filtered collection share a
first formatted cell, the handler receives exactly the item whose
formatted row is the displayed row at the cursor position. -/
theorem C2_selection_dispatch {T : Type} (m : TableModel T)
    (hne : ∀ d ∈ m.filteredData, m.formatFunc d ≠ []) :
    (m.handleEnter).2 = .ok (selectDispatchSpec m) ∧
    (∀ (i : Nat) (hi : i < m.filteredData.length),
      m.table.rows = m.filteredData.map m.formatFunc →
      m.table.cursor = (i : Int) →
      (m.filteredData.map (fun d => (m.formatFunc d).head?)).Nodup →
      (m.handleEnter).2 = .ok (m.selectFunc (m.filteredData.get ⟨i, hi⟩))) := by
  have hmain : (m.handleEnter).2 = .ok (selectDispatchSpec m) := by
    rw [handleEnter_snd]; exact selectCurrentRow_eq_spec m hne
  refine ⟨hmain, ?_⟩
  intro i hi hrows hcur hnd
  have hsel := selectedRow_at_cursor m i hi hrows hcur
  have hgm : m.filteredData.get ⟨i, hi⟩ ∈ m.filteredData := List.get_mem _ i hi
  rw [hmain]
  unfold selectDispatchSpec
  rw [hsel]
  cases hfd : m.formatFunc (m.filteredData.get ⟨i, hi⟩) with
  | nil => exact absurd hfd (hne _ hgm)
  | cons c cs =>
    have hh : (m.formatFunc (m.filteredData.get ⟨i, hi⟩)).head? = some c := by rw [hfd]; rfl
    show Except.ok
        (match m.filteredData.find? (fun d => (m.formatFunc d).head? == some c) with
         | some x => m.selectFunc x
         | none => Cmd.noop) =
      Except.ok (m.selectFunc (m.filteredData.get ⟨i, hi⟩))
    rw [← hh, find?_head_get m.formatFunc m.filteredData i hi hnd]

/-- A witness table with two formatted rows and the cursor on the second. -/
def tblW : Table := { rows := [["5"], ["6"]], cursor := 1, focused := true }

/-- A loaded witness widget over Nat items, browsing with the cursor on
the second row. -/
def mSel : TableModel Nat :=
  { name := "services", loading := false, data := [5, 6], filteredData := [5, 6],
    table := tblW, spinner := 0, searchInput := initSearchInput, searching := false,
    currentFilter := "", columns := [], formatFunc := fmtNat,
    loadFunc := .ok [5, 6], selectFunc := fun n => .user "select" n,
    filterFunc := fun _ _ => true }

/-- C2 witness: the theorem applied at the loaded witness widget. -/
theorem C2_witness :
    (∀ d ∈ mSel.filteredData, mSel.formatFunc d ≠ []) ∧
    (mSel.handleEnter).2 = .ok (selectDispatchSpec mSel) ∧
    (mSel.handleEnter).2 = .ok (mSel.selectFunc (mSel.filteredData.get ⟨1, by decide⟩)) := by
  have h := C2_selection_dispatch mSel (by decide)
  exact ⟨by decide, h.1, h.2 1 (by decide) (by decide) rfl (by decide)⟩

/-- C9 witness: the theorem applied at the loaded witness widget. -/
theorem C9_witness :
    (∀ d ∈ mSel.filteredData, mSel.formatFunc d ≠ []) ∧
    ∃ c, mSel.selectCurrentRow = .ok c :=
  ⟨by decide, C9_selectCurrentRow_safe mSel (by decide)⟩

/-- The text input ignores the esc key. -/
theorem textInput_update_esc (ti : TextInput) : ti.update .esc = ti := by
  unfold TextInput.update
  split <;> rfl

/-- Key messages never change the loading flag. -/
theorem update_key_loading {T : Type} (m : TableModel T) (k : Key) :
    ((m.update (.key k)).1).loading = m.loading := by
  by_cases hs : m.searching = true <;>
    cases k <;>
      simp [TableModel.update, TableModel.updateSearching, TableModel.handleKeyMsg,
        TableModel.handleEnter, TableModel.handleEsc, TableModel.handleSlash,
        TableModel.updateTableRows, hs] <;>
      split_ifs <;> rfl

/-- Filtering an empty data collection yields the empty collection. -/
theorem filterData_of_nil {T : Type} (m : TableModel T) (hd : m.data = []) (q : String) :
    m.filterData q = [] := by
  rw [filterData_eq, hd]
  split <;> simp

/-- Every message other than a load completion keeps empty data and
empty filtered data empty. -/
theorem update_nonload_empty {T : Type} (m : TableModel T) (msg : Msg T)
    (hd : m.data = []) (hf : m.filteredData = [])
    (hnl : ∀ items : List T, msg ≠ .loadDataMsg items) :
    ((m.update msg).1).data = [] ∧ ((m.update msg).1).filteredData = [] := by
  cases msg with
  | loadDataMsg items => exact absurd rfl (hnl items)
  | loadedErrMsg e => exact ⟨hd, hf⟩
  | tick =>
    by_cases hl : m.loading = true <;>
      simp [TableModel.update, TableModel.updateComponents, hl, hd, hf]
  | key k =>
    by_cases hs : m.searching = true
    · cases k with
      | enter =>
        simp [TableModel.update, hs, TableModel.updateSearching, TableModel.handleEnter,
          hd, hf]
      | esc =>
        simp [TableModel.update, hs, TableModel.updateSearching, TableModel.handleEsc,
          TableModel.updateTableRows, hd, hf]
      | up => simp [TableModel.update, hs, TableModel.updateSearching, hd, hf]
      | down => simp [TableModel.update, hs, TableModel.updateSearching, hd, hf]
      | backspace =>
        simp [TableModel.update, hs, TableModel.updateSearching, TableModel.updateTableRows,
          hd, hf, filterData_of_nil]
      | char c =>
        simp [TableModel.update, hs, TableModel.updateSearching, TableModel.updateTableRows,
          hd, hf, filterData_of_nil]
    · have hsf : m.searching = false := by simpa using hs
      cases k with
      | enter =>
        simp [TableModel.update, hsf, TableModel.handleKeyMsg, TableModel.handleEnter,
          hd, hf]
      | esc =>
        by_cases hfo : m.table.focused = true <;>
          simp [TableModel.update, hsf, TableModel.handleKeyMsg, TableModel.handleEsc,
            hfo, hd, hf]
      | up => simp [TableModel.update, hsf, TableModel.handleKeyMsg, hd, hf]
      | down => simp [TableModel.update, hsf, TableModel.handleKeyMsg, hd, hf]
      | backspace => simp [TableModel.update, hsf, TableModel.handleKeyMsg, hd, hf]
      | char c =>
        by_cases hc : c = '/' <;>
          simp [TableModel.update, hsf, TableModel.handleKeyMsg, TableModel.handleSlash,
            hc, hd, hf]

/-- Guard for the amended C3 invariant: a load completion is only
processed while the current filter is empty (in particular, when no query
was typed before the load finished). -/
def loadWithEmptyFilter {T : Type} (m : TableModel T) (msg : Msg T) : Prop :=
  match msg with
  | .loadDataMsg _ => m.currentFilter = ""
  | _ => True

/-- The filtering invariant holds at construction. -/
theorem filterInvariant_init {T : Type} (name : String) (lf : Except String (List T))
    (ff : T → List String) (sf : T → Cmd T) (cols : List Column)
    (flt : T → String → Bool) :
    filterInvariant (newTableModel name lf ff sf cols flt) := by
  simp [filterInvariant, newTableModel]

/-- One guarded step preserves the filtering invariant. -/
theorem filterInvariant_step {T : Type} (m : TableModel T) (msg : Msg T)
    (hinv : filterInvariant m) (hg : loadWithEmptyFilter m msg) :
    filterInvariant (m.update msg).1 := by
  cases msg with
  | loadDataMsg items =>
    have hcf : m.currentFilter = "" := hg
    simp [TableModel.update, TableModel.setTableData, TableModel.updateTableRows,
      filterInvariant, hcf]
  | loadedErrMsg e =>
    simpa [TableModel.update, filterInvariant] using hinv
  | tick =>
    by_cases hl : m.loading = true <;>
      simpa [TableModel.update, TableModel.updateComponents, hl, filterInvariant] using hinv
  | key k =>
    by_cases hs : m.searching = true
    · cases k with
      | enter =>
        simpa [TableModel.update, hs, TableModel.updateSearching, TableModel.handleEnter,
          filterInvariant] using hinv
      | esc =>
        simp [TableModel.update, hs, TableModel.updateSearching, TableModel.handleEsc,
          TableModel.updateTableRows, filterInvariant]
      | up =>
        simpa [TableModel.update, hs, TableModel.updateSearching, filterInvariant] using hinv
      | down =>
        simpa [TableModel.update, hs, TableModel.updateSearching, filterInvariant] using hinv
      | backspace =>
        simp [TableModel.update, hs, TableModel.updateSearching, TableModel.updateTableRows,
          filterInvariant, filterData_eq]
      | char c =>
        simp [TableModel.update, hs, TableModel.updateSearching, TableModel.updateTableRows,
          filterInvariant, filterData_eq]
    · have hsf : m.searching = false := by simpa using hs
      cases k with
      | enter =>
        simpa [TableModel.update, hsf, TableModel.handleKeyMsg, TableModel.handleEnter,
          filterInvariant] using hinv
      | esc =>
        by_cases hfo : m.table.focused = true <;>
          simpa [TableModel.update, hsf, TableModel.handleKeyMsg, TableModel.handleEsc,
            hfo, filterInvariant] using hinv
      | up =>
        simpa [TableModel.update, hsf, TableModel.handleKeyMsg, filterInvariant] using hinv
      | down =>
        simpa [TableModel.update, hsf, TableModel.handleKeyMsg, filterInvariant] using hinv
      | backspace =>
        simpa [TableModel.update, hsf, TableModel.handleKeyMsg, filterInvariant] using hinv
      | char c =>
        by_cases hc : c = '/' <;>
          simpa [TableModel.update, hsf, TableModel.handleKeyMsg, TableModel.handleSlash,
            hc, filterInvariant] using hinv

/-- C3 counterexample: a reachable state violating the filtering
invariant, obtained by entering search and typing a query while the load
is still in flight, after which the load completion installs the full
data as the filtered collection although the current filter is
non-empty. -/
def mC3base : TableModel Nat :=
  newTableModel "resources" (.ok [1]) fmtNat (fun n => .user "select" n) [] (fun _ _ => false)

def mC3bad : TableModel Nat :=
  (((mC3base.update (.key (.char '/'))).1.update (.key (.char 'a'))).1.update
    (.loadDataMsg [1])).1

/-- C3 counterexample theorem: the claimed invariant fails in a reachable
state (search entered and the query "a" typed during loading, then the
load of the single item completed: the filtered collection is the full
data although the filter "a" accepts nothing). -/
theorem C3_counterexample :
    ∃ m : TableModel Nat, Reachable m ∧ ¬ filterInvariant m := by
  refine ⟨mC3bad, ?_, ?_⟩
  · exact ReachableG.step (.loadDataMsg [1])
      (ReachableG.step (.key (.char 'a'))
        (ReachableG.step (.key (.char '/'))
          (ReachableG.init "resources" (.ok [1]) fmtNat (fun n => .user "select" n) []
            (fun _ _ => false))
          trivial)
        trivial)
      trivial
  · simp only [filterInvariant]
    decide

/-- C3 (amended): the invariant holds in every state reachable from
construction by event sequences in which each load completion is
processed while the current filter is still empty; the unrestricted
claim fails because a load completion overwrites the filtered collection
with the full data without re-applying a non-empty current filter. -/
theorem C3_amended_invariant {T : Type} (m : TableModel T)
    (hr : ReachableG loadWithEmptyFilter m) : filterInvariant m := by
  induction hr with
  | init name lf ff sf cols flt => exact filterInvariant_init name lf ff sf cols flt
  | step msg hr hg ih => exact filterInvariant_step _ msg ih hg

/-- C3 witness: the amended theorem applied at a freshly constructed
widget. -/
theorem C3_witness :
    ReachableG loadWithEmptyFilter mW ∧ filterInvariant mW := by
  have hr : ReachableG loadWithEmptyFilter mW :=
    ReachableG.init "services" (.ok [1, 2]) fmtNat (fun n => .user "select" n) []
      (fun n _ => n == 1)
  exact ⟨hr, C3_amended_invariant mW hr⟩

/-- C4 counterexample context: a loaded widget in which search was
entered and the query "x" typed. -/
def mC4base : TableModel Nat :=
  newTableModel "projects" (.ok [1]) fmtNat (fun n => .user "select" n) [] (fun _ _ => true)

def mC4pre : TableModel Nat :=
  (((mC4base.update (.loadDataMsg [1])).1.update (.key (.char '/'))).1.update
    (.key (.char 'x'))).1

/-- C4 counterexample theorem: a reachable searching state in which
pressing esc leaves the search input query buffer non-empty — the buffer
is not cleared, contradicting the claim. -/
theorem C4_counterexample :
    ∃ m : TableModel Nat, Reachable m ∧ m.searching = true ∧
      ((m.update (.key .esc)).1).searchInput.value ≠ "" := by
  refine ⟨mC4pre, ?_, by decide, by decide⟩
  exact ReachableG.step (.key (.char 'x'))
    (ReachableG.step (.key (.char '/'))
      (ReachableG.step (.loadDataMsg [1])
        (ReachableG.init "projects" (.ok [1]) fmtNat (fun n => .user "select" n) []
          (fun _ _ => true))
        trivial)
      trivial)
    trivial

/-- C4 (amended): from every searching state, whatever intermediate query
edits produced it, pressing esc exits search mode, restores the filtered
collection to exactly the data and resets the current filter to the empty
string; the search input query buffer however is not cleared — it keeps
its previous text. -/
theorem C4_amended_esc {T : Type} (m : TableModel T) (hs : m.searching = true) :
    ((m.update (.key .esc)).1).searching = false ∧
    ((m.update (.key .esc)).1).filteredData = m.data ∧
    ((m.update (.key .esc)).1).currentFilter = "" ∧
    ((m.update (.key .esc)).1).searchInput.value = m.searchInput.value := by
  simp [TableModel.update, hs, TableModel.updateSearching, textInput_update_esc,
    TableModel.handleEsc, TableModel.updateTableRows, TextInput.blur]

/-- C4 witness: the amended theorem applied at the concrete searching
state with the query "x" typed. -/
theorem C4_witness :
    mC4pre.searching = true ∧
    ((mC4pre.update (.key .esc)).1).searching = false ∧
    ((mC4pre.update (.key .esc)).1).filteredData = mC4pre.data ∧
    ((mC4pre.update (.key .esc)).1).currentFilter = "" ∧
    ((mC4pre.update (.key .esc)).1).searchInput.value = mC4pre.searchInput.value := by
  have h := C4_amended_esc mC4pre (by decide)
  exact ⟨by decide, h.1, h.2.1, h.2.2.1, h.2.2.2⟩

/-- Guard for the amended C7 invariant: the slash key is only pressed
after loading has finished. -/
def slashNotWhileLoading {T : Type} (m : TableModel T) (msg : Msg T) : Prop :=
  match msg with
  | .key (.char c) => c = '/' → m.loading = false
  | _ => True

/-- Exactly one mode holds precisely when loading and searching are not
simultaneously true (plain-browsing being the absence of both). -/
theorem modeCount_eq_one_iff {T : Type} (m : TableModel T) :
    modeCount m = 1 ↔ ¬(m.loading = true ∧ m.searching = true) := by
  unfold modeCount
  cases hl : m.loading <;> cases hs : m.searching <;> simp

/-- One guarded step keeps loading and searching from overlapping. -/
theorem notBoth_step {T : Type} (m : TableModel T) (msg : Msg T)
    (h : ¬(m.loading = true ∧ m.searching = true)) (hg : slashNotWhileLoading m msg) :
    ¬(((m.update msg).1).loading = true ∧ ((m.update msg).1).searching = true) := by
  cases msg with
  | loadDataMsg items =>
    simp [TableModel.update, TableModel.setTableData, TableModel.updateTableRows]
  | loadedErrMsg e => simp [TableModel.update]
  | tick =>
    by_cases hl : m.loading = true
    · simpa [TableModel.update, TableModel.updateComponents, hl] using h
    · simp [TableModel.update, TableModel.updateComponents, hl]
  | key k =>
    rcases Bool.eq_false_or_eq_true m.loading with hl | hl
    · have hsf : m.searching = false := by
        rcases Bool.eq_false_or_eq_true m.searching with h2 | h2
        · exact absurd ⟨hl, h2⟩ h
        · exact h2
      cases k with
      | enter =>
        simp [TableModel.update, hsf, TableModel.handleKeyMsg, TableModel.handleEnter]
      | esc =>
        by_cases hfo : m.table.focused = true <;>
          simp [TableModel.update, hsf, TableModel.handleKeyMsg, TableModel.handleEsc, hfo]
      | up => simp [TableModel.update, hsf, TableModel.handleKeyMsg]
      | down => simp [TableModel.update, hsf, TableModel.handleKeyMsg]
      | backspace => simp [TableModel.update, hsf, TableModel.handleKeyMsg]
      | char c =>
        by_cases hc : c = '/'
        · rw [hg hc] at hl
          simp at hl
        · simp [TableModel.update, hsf, TableModel.handleKeyMsg, hc]
    · have hnew : ((m.update (.key k)).1).loading = false := by
        rw [update_key_loading, hl]
      simp [hnew]

/-- C7 counterexample context: a freshly constructed widget in which the
slash key is pressed while the load is still in flight. -/
def mC7base : TableModel Nat :=
  newTableModel "deploys" (.ok [1]) fmtNat (fun n => .user "select" n) [] (fun _ _ => true)

def mC7bad : TableModel Nat := (mC7base.update (.key (.char '/'))).1

/-- C7 counterexample theorem: a reachable state in which loading and
searching hold simultaneously, so the three modes are not mutually
exclusive (the mode count is two, not one). -/
theorem C7_counterexample :
    ∃ m : TableModel Nat, Reachable m ∧ modeCount m ≠ 1 := by
  refine ⟨mC7bad, ?_, by decide⟩
  exact ReachableG.step (.key (.char '/'))
    (ReachableG.init "deploys" (.ok [1]) fmtNat (fun n => .user "select" n) []
      (fun _ _ => true))
    trivial

/-- C7 (amended): exactly one of the three modes loading, searching and
plain-browsing holds in every state reachable from construction by event
sequences in which the slash key is only pressed after loading has
finished; the unrestricted claim fails because pressing slash during
loading makes loading and searching hold simultaneously. -/
theorem C7_amended_modes {T : Type} (m : TableModel T)
    (hr : ReachableG slashNotWhileLoading m) : modeCount m = 1 := by
  have h : ¬(m.loading = true ∧ m.searching = true) := by
    induction hr with
    | init name lf ff sf cols flt => simp [newTableModel]
    | step msg hr hg ih => exact notBoth_step _ msg ih hg
  exact (modeCount_eq_one_iff m).mpr h

/-- C7 witness: the amended theorem applied at a freshly constructed
widget. -/
theorem C7_witness :
    ReachableG slashNotWhileLoading mC7base ∧ modeCount mC7base = 1 := by
  have hr : ReachableG slashNotWhileLoading mC7base :=
    ReachableG.init "deploys" (.ok [1]) fmtNat (fun n => .user "select" n) []
      (fun _ _ => true)
  exact ⟨hr, C7_amended_modes mC7base hr⟩

/-- C8: in every reachable state in which loading is true, data and
filteredData are both empty; processing a successful load completion
stores the items in both and sets loading to false, and no other message
can make them non-empty. -/
theorem C8_loading_empty {T : Type} (m : TableModel T) :
    (Reachable m → m.loading = true → m.data = [] ∧ m.filteredData = []) ∧
    (∀ items : List T,
      ((m.update (.loadDataMsg items)).1).loading = false ∧
      ((m.update (.loadDataMsg items)).1).data = items ∧
      ((m.update (.loadDataMsg items)).1).filteredData = items) ∧
    (∀ msg : Msg T, (∀ items : List T, msg ≠ .loadDataMsg items) →
      m.data = [] → m.filteredData = [] →
      ((m.update msg).1).data = [] ∧ ((m.update msg).1).filteredData = []) := by
  refine ⟨?_, fun items => ⟨rfl, rfl, rfl⟩,
    fun msg hnl hd hf => update_nonload_empty m msg hd hf hnl⟩
  intro hr
  induction hr with
  | init name lf ff sf cols flt => intro _; exact ⟨rfl, rfl⟩
  | @step m2 msg hr hg ih =>
    intro hl
    cases msg with
    | loadDataMsg items =>
      exact absurd hl (by simp [TableModel.update, TableModel.setTableData,
        TableModel.updateTableRows])
    | loadedErrMsg e => exact absurd hl (by simp [TableModel.update])
    | tick =>
      rcases Bool.eq_false_or_eq_true m2.loading with hl2 | hl2
      · have he := ih hl2
        simpa [TableModel.update, TableModel.updateComponents, hl2] using he
      · exact absurd hl (by simp [TableModel.update, TableModel.updateComponents, hl2])
    | key k =>
      have hl0 : m2.loading = true := by rw [← update_key_loading m2 k]; exact hl
      have he := ih hl0
      exact update_nonload_empty m2 (.key k) he.1 he.2 (fun items hco => by cases hco)

/-- C8 witness: the theorem applied at a freshly constructed widget,
which is loading with empty data. -/
theorem C8_witness :
    Reachable mW ∧ mW.loading = true ∧ mW.data = [] ∧ mW.filteredData = [] := by
  have hr : Reachable mW :=
    ReachableG.init "services" (.ok [1, 2]) fmtNat (fun n => .user "select" n) []
      (fun n _ => n == 1)
  have h := (C8_loading_empty mW).1 hr rfl
  exact ⟨hr, rfl, h.1, h.2⟩

/-- Guard excluding load completions entirely, for traces of a widget
whose loader failed (no load-completion message is ever produced). -/
def noLoadMsg {T : Type} (_m : TableModel T) (msg : Msg T) : Prop :=
  match msg with
  | .loadDataMsg _ => False
  | _ => True

/-- C6: when the loader returns an error, the produced message is the
load-error message; updating on it quits (loading becomes false, the
state is otherwise untouched); while loading the view is the spinner
caption and never a table; and along any trace without a load
completion the widget never stores any items. -/
theorem C6_load_failure {T : Type} (m : TableModel T) (e : String) :
    (m.loadFunc = .error e → m.loadData = .loadedErrMsg e) ∧
    m.update (.loadedErrMsg e) = ({ m with loading := false }, .ok .quit) ∧
    (m.loading = true → m.view = .loadingView m.name) ∧
    (ReachableG noLoadMsg m → m.data = [] ∧ m.filteredData = []) := by
  refine ⟨?_, rfl, ?_, ?_⟩
  · intro h; simp [TableModel.loadData, h]
  · intro h; simp [TableModel.view, h]
  · intro hr
    induction hr with
    | init name lf ff sf cols flt => exact ⟨rfl, rfl⟩
    | step msg hr hg ih =>
      cases msg with
      | loadDataMsg items => exact hg.elim
      | loadedErrMsg e2 =>
        exact update_nonload_empty _ _ ih.1 ih.2 (fun items hc => by cases hc)
      | tick => exact update_nonload_empty _ _ ih.1 ih.2 (fun items hc => by cases hc)
      | key k => exact update_nonload_empty _ _ ih.1 ih.2 (fun items hc => by cases hc)

/-- C6 witness context: a widget whose loader fails with "network
unreachable". -/
def mErr : TableModel Nat :=
  newTableModel "services" (.error "network unreachable") fmtNat
    (fun n => .user "select" n) [] (fun _ _ => true)

/-- C6 witness: the theorem applied at the failing-loader widget. -/
theorem C6_witness :
    mErr.loadFunc = .error "network unreachable" ∧
    mErr.loadData = .loadedErrMsg "network unreachable" ∧
    (mErr.update (.loadedErrMsg "network unreachable")).2 = .ok .quit ∧
    ((mErr.update (.loadedErrMsg "network unreachable")).1).loading = false ∧
    mErr.loading = true ∧ mErr.view = .loadingView "services" ∧
    mErr.data = [] ∧ mErr.filteredData = [] := by
  have h := C6_load_failure mErr "network unreachable"
  have hr : ReachableG noLoadMsg mErr :=
    ReachableG.init "services" (.error "network unreachable") fmtNat
      (fun n => .user "select" n) [] (fun _ _ => true)
  refine ⟨rfl, h.1 rfl, ?_, ?_, rfl, h.2.2.1 rfl, (h.2.2.2 hr).1, (h.2.2.2 hr).2⟩
  · rw [h.2.1]
  · rw [h.2.1]

/-- C5: pressing a bound custom-option key while browsing (not searching)
invokes that option's action function with the currently highlighted
item, and not any other option's function: the resulting command is
exactly the one produced by the first registered option bound to the
pressed key, applied to the highlighted item. -/
theorem C5_custom_option {T : Type} (m : TableModel T) (opts : List (CustomOption T))
    (c : Char) (o : CustomOption T) (x : T)
    (hs : m.searching = false) (hslash : c ≠ '/')
    (hfind : opts.find? (fun o2 => o2.key == String.singleton c) = some o)
    (hitem : highlightedItem m = some x) :
    updateWithOptions m opts (.key (.char c)) = (m, .ok (o.function x)) := by
  simp [updateWithOptions, hs, handleKeyMsgWithOptions, hslash, dispatchOption, hfind, hitem]

/-- The two registered options of the C5 scenario. -/
def optD : CustomOption Nat :=
  { key := "d", title := "Deploy", function := fun n => .user "d" n }

def optW : CustomOption Nat :=
  { key := "w", title := "Change Workspace", function := fun n => .user "w" n }

/-- C5 witness: with options "d" and "w" registered, pressing "w" while
browsing with item 6 highlighted invokes the "w" action on 6 — and that
command differs from the "d" action's. -/
theorem C5_witness :
    mSel.searching = false ∧
    [optD, optW].find? (fun o2 => o2.key == String.singleton 'w') = some optW ∧
    highlightedItem mSel = some 6 ∧
    updateWithOptions mSel [optD, optW] (.key (.char 'w')) = (mSel, .ok (.user "w" 6)) ∧
    Cmd.user "w" 6 ≠ Cmd.user "d" (6 : Nat) := by
  have h := C5_custom_option mSel [optD, optW] 'w' optW 6 rfl (by decide) rfl rfl
  exact ⟨rfl, rfl, rfl, h, by decide⟩

/-- C10: the error-display screen terminates on any input: for every
message whatsoever, Update returns the model with its DisplayError field
unchanged together with a quit command, and View always renders exactly
the stored DisplayError string in the error style. -/
theorem C10_error_model (M : Type) (m : ErrorModel) (msg : M) :
    ErrorModel.update m msg = (m, Cmd.quit) ∧
    (ErrorModel.view m).text = m.DisplayError ∧
    (ErrorModel.view m).style = errorStyle :=
  ⟨rfl, rfl, rfl⟩

end CliTui
